import Mathlib

/-!
Verification of the CPE ingestion core of the VulnDojoArch repository.

The development shallowly embeds the code of
`apps/core/utils.py` (class `NVDAPIClient`) and
`apps/cpe_repository/services.py` (class `CPEImportService`), together with
the relevant persistence behaviour of the Django models in
`apps/core/models.py` and `apps/cpe_repository/models.py`.

Modelling conventions:
* Python strings are Lean `String`s; `str.split`, `str.replace` and slice
  truncation (`[:n]`) are embedded as the character-list functions
  `pySplit`, `pyReplace` and `pyTake` below, which implement exactly the
  Python semantics (single-character separator split, left-to-right
  non-overlapping replacement, prefix truncation).
* Wall-clock time is an integer (`ℤ`); `time.sleep` advances a logical
  clock and is recorded in a `sleeps` log.
* HTTP traffic is modelled by a pre-scripted list of responses consumed in
  order (the usual mock-transport idealization); exhausting the script
  behaves as a transport failure.
* The relational store is an association list keyed by `cpe_name_id`, with
  Django's `get_or_create` / `update_or_create` and the
  `auto_now_add` / `auto_now` timestamp behaviour of `TimestampedModel`
  made explicit.
* A raised Python exception is modelled by `Except.error` carrying the
  exception message; the fault oracle `faulty` marks the entries whose
  per-entry persistence raises (the `try/except` inside
  `_process_cpe_batch`).
-/

namespace VulnDojo

/-! ## Python string primitives -/

/-- Embedding of Python `s.split(sep)` for a single-character separator:
splits on every occurrence, `"".split(sep) = [""]`. -/
def pySplit (s : String) (sep : Char) : List String :=
  (s.data.splitOn sep).map String.mk

/-- Auxiliary scanner for `pyReplace`: fuel-indexed left-to-right
non-overlapping replacement of `pat` by `rep`. The fuel is the length of the
scanned list, which suffices because every step consumes at least one
character when `pat` is nonempty. -/
def replaceChars (pat rep : List Char) : Nat → List Char → List Char
  | _, [] => []
  | 0, s => s
  | Nat.succ fuel, c :: rest =>
      if pat.isPrefixOf (c :: rest) then
        rep ++ replaceChars pat rep fuel ((c :: rest).drop pat.length)
      else
        c :: replaceChars pat rep fuel rest

/-- Embedding of Python `s.replace(pattern, replacement)` (all occurrences,
left to right, non-overlapping). -/
def pyReplace (s pattern replacement : String) : String :=
  String.mk (replaceChars pattern.data replacement.data s.data.length s.data)

/-- Embedding of Python prefix slicing `s[:n]`. -/
def pyTake (s : String) (n : Nat) : String :=
  String.mk (s.data.take n)

/-! ## Raw and normalized CPE data

`CpeData` is the nested `'cpe'` payload of one element of the `products`
list of an NVD API response; `deprecatedBy` carries the raw
`'deprecatedBy'` value with the dictionary default `[]` already applied.
A `RawEntry` is one element of `products`: `none` models a product
dictionary whose `'cpe'` key is missing or empty. -/

structure CpeData where
  cpeName : String
  cpeNameId : String
  deprecated : Bool
  deprecatedBy : List String
deriving DecidableEq, Repr

abbrev RawEntry := Option CpeData

/-- The dictionary built by `CPEImportService._normalize_cpe_data`, i.e. the
field values handed to the `CPERecord` persistence calls. -/
structure NormalizedData where
  cpe_name : String
  cpe_name_id : String
  part : String
  vendor : String
  product : String
  version : String
  update : String
  edition : String
  language : String
  sw_edition : String
  target_sw : String
  target_hw : String
  other : String
  deprecated : Bool
  deprecated_by : Option (List String)
deriving DecidableEq, Repr

/-! ## `CPEImportService._decode_cpe_component` -/

/-- Embedding of `CPEImportService._decode_cpe_component`:
```python
if not component or component == '*':
    return ''
decoded = component.replace('%20', ' ').replace('%2f', '/').replace('%5c', '\x5c\x5c')
return decoded[:200]
``` -/
def decodeCpeComponent (component : String) : String :=
  if component = "" ∨ component = "*" then ""
  else
    let decoded := pyReplace (pyReplace (pyReplace component "%20" " ") "%2f" "/") "%5c" "\\"
    pyTake decoded 200

/-! ## `CPEImportService._normalize_cpe_data` -/

/-- The split step of `_normalize_cpe_data`:
`cpe_parts = cpe_name.split(':') if cpe_name else []`. -/
def cpeSegments (cpe_name : String) : List String :=
  if cpe_name = "" then [] else pySplit cpe_name ':'

/-- The padding step of `_normalize_cpe_data`:
`while len(cpe_parts) < 13: cpe_parts.append('*')`. -/
def cpePadded (cpe_name : String) : List String :=
  cpeSegments cpe_name ++ List.replicate (13 - (cpeSegments cpe_name).length) "*"

/-- Embedding of `CPEImportService._normalize_cpe_data`. Each component is
`cpe_parts[i] if len(cpe_parts) > i else ''`, with positions 3–12 passed
through `_decode_cpe_component` and position 2 (`part`) taken raw. -/
def normalizeCpeData (cpe_data : CpeData) : NormalizedData :=
  let cpe_name := cpe_data.cpeName
  let cpe_parts := cpePadded cpe_name
  let deprecated := cpe_data.deprecated
  { cpe_name := cpe_name
    cpe_name_id := cpe_data.cpeNameId
    part := if 2 < cpe_parts.length then cpe_parts.getD 2 "" else ""
    vendor := if 3 < cpe_parts.length then decodeCpeComponent (cpe_parts.getD 3 "") else ""
    product := if 4 < cpe_parts.length then decodeCpeComponent (cpe_parts.getD 4 "") else ""
    version := if 5 < cpe_parts.length then decodeCpeComponent (cpe_parts.getD 5 "") else ""
    update := if 6 < cpe_parts.length then decodeCpeComponent (cpe_parts.getD 6 "") else ""
    edition := if 7 < cpe_parts.length then decodeCpeComponent (cpe_parts.getD 7 "") else ""
    language := if 8 < cpe_parts.length then decodeCpeComponent (cpe_parts.getD 8 "") else ""
    sw_edition := if 9 < cpe_parts.length then decodeCpeComponent (cpe_parts.getD 9 "") else ""
    target_sw := if 10 < cpe_parts.length then decodeCpeComponent (cpe_parts.getD 10 "") else ""
    target_hw := if 11 < cpe_parts.length then decodeCpeComponent (cpe_parts.getD 11 "") else ""
    other := if 12 < cpe_parts.length then decodeCpeComponent (cpe_parts.getD 12 "") else ""
    deprecated := deprecated
    deprecated_by := if deprecated then some cpe_data.deprecatedBy else none }

/-! ## The relational store

`StoredRec` is a persisted `CPERecord` row together with the
`TimestampedModel` columns: `created_at` is set once at creation
(`auto_now_add=True`), `updated_at` is set on every save (`auto_now=True`).
The store is the table of rows; `get_or_create` / `update_or_create` look a
row up by the `cpe_name_id` unique key, exactly as in
`_process_cpe_batch`. -/

structure StoredRec where
  data : NormalizedData
  created_at : ℤ
  updated_at : ℤ
deriving DecidableEq, Repr

abbrev Store := List StoredRec

/-- Row lookup by the `cpe_name_id` unique key. -/
def findByNameId (s : Store) (k : String) : Option StoredRec :=
  s.find? (fun r => r.data.cpe_name_id == k)

/-- Embedding of `CPERecord.objects.get_or_create(cpe_name_id=k, defaults=d)`
at time `now`: an existing row is left untouched, otherwise a fresh row is
inserted with both timestamps set to `now`. Returns the Django
`created` flag. -/
def getOrCreate (s : Store) (k : String) (defaults : NormalizedData) (now : ℤ) :
    Store × Bool :=
  match findByNameId s k with
  | some _ => (s, false)
  | none => (s ++ [{ data := defaults, created_at := now, updated_at := now }], true)

/-- Embedding of
`CPERecord.objects.update_or_create(cpe_name_id=k, defaults=d)` at time
`now`: an existing row has all its fields overwritten with `d` and
`updated_at` advanced to `now` (`created_at` is `auto_now_add` and is not
rewritten); otherwise a fresh row is inserted. -/
def updateOrCreate (s : Store) (k : String) (defaults : NormalizedData) (now : ℤ) :
    Store × Bool :=
  match findByNameId s k with
  | some _ =>
      (s.map (fun r =>
        if r.data.cpe_name_id == k then
          { r with data := defaults, updated_at := now }
        else r), false)
  | none => (s ++ [{ data := defaults, created_at := now, updated_at := now }], true)

/-! ## `CPEImportService._process_cpe_batch`

The `try/except` around each entry swallows any exception raised while
persisting that entry; the oracle `faulty` marks the entries whose
persistence call raises. An entry with a missing or empty `'cpe'` payload
(`RawEntry = none`) is skipped with a warning. Only entries that reach the
successful end of the `try` block increment `processed_count`. -/

/-- The body of the `for product_data in products` loop for one entry. -/
def processOneEntry (faulty : CpeData → Bool) (now : ℤ) (s : Store)
    (product_data : RawEntry) (update_existing : Bool) : Store × Nat :=
  match product_data with
  | none => (s, 0)
  | some cpe_data =>
      let normalized_data := normalizeCpeData cpe_data
      if faulty cpe_data then (s, 0)
      else if update_existing then
        ((updateOrCreate s normalized_data.cpe_name_id normalized_data now).1, 1)
      else
        ((getOrCreate s normalized_data.cpe_name_id normalized_data now).1, 1)

/-- Embedding of `CPEImportService._process_cpe_batch(products, update_existing)`:
returns the store after the batch and the `processed_count` return value. -/
def processCpeBatch (faulty : CpeData → Bool) (now : ℤ) (products : List RawEntry)
    (update_existing : Bool) (s : Store) : Store × Nat :=
  match products with
  | [] => (s, 0)
  | product_data :: rest =>
      let step := processOneEntry faulty now s product_data update_existing
      let restRes := processCpeBatch faulty now rest update_existing step.1
      (restRes.1, step.2 + restRes.2)

/-! ## The import pipeline: `full_import` and `incremental_update`

A fetch is answered by the next element of a pre-scripted list of
responses; `Except.error msg` models `get_cpes` raising an exception with
message `msg`, and an exhausted script behaves as a transport failure. -/

/-- One page of an NVD CPE API response: the `products` list and the
`totalResults` field (`response.get('totalResults', 0)` with the default
already applied). -/
structure PageResponse where
  products : List RawEntry
  totalResults : Nat
deriving Repr

abbrev FetchScript := List (Except String PageResponse)

/-- The audit row of `apps.core.models.ImportLog` as the pipeline writes it. -/
structure ImportLog where
  source : String
  operation : String
  status : String
  records_processed : Nat
  error_message : String
deriving DecidableEq, Repr

/-- Result of one pipeline run: the final (saved) audit row, the final
store, the number of `get_cpes` fetch calls issued, and the exception
message re-raised to the caller, if any. -/
structure ImportOutcome where
  log : ImportLog
  store : Store
  fetch_calls : Nat
  raised : Option String
deriving Repr

/-- The `while True` loop of `full_import`, returning
(fetch calls issued, final store, total processed or raised message).
Recursion is on the response script: page `products` empty stops the loop,
and so does `start_index + len(products) >= total_results`; otherwise the
offset advances by the returned count. -/
def fullImportLoop (faulty : CpeData → Bool) (now : ℤ) :
    FetchScript → Nat → Nat → Store → Nat × Store × Except String Nat
  | [], _, _, s => (1, s, Except.error "connection failed")
  | Except.error msg :: _, _, _, s => (1, s, Except.error msg)
  | Except.ok response :: rest, start_index, total_processed, s =>
      let products := response.products
      if products = [] then (1, s, Except.ok total_processed)
      else
        let batch := processCpeBatch faulty now products false s
        let total_processed' := total_processed + batch.2
        if response.totalResults ≤ start_index + products.length then
          (1, batch.1, Except.ok total_processed')
        else
          let r := fullImportLoop faulty now rest (start_index + products.length)
            total_processed' batch.1
          (r.1 + 1, r.2.1, r.2.2)

/-- Embedding of `CPEImportService.full_import`: creates the STARTED audit
row, runs the loop, and saves the row as SUCCESS with the processed count,
or as FAILED with the exception message before re-raising. -/
def fullImport (faulty : CpeData → Bool) (now : ℤ) (script : FetchScript)
    (s : Store) : ImportOutcome :=
  let import_log : ImportLog :=
    { source := "CPE", operation := "FULL_IMPORT", status := "STARTED",
      records_processed := 0, error_message := "" }
  let r := fullImportLoop faulty now script 0 0 s
  match r.2.2 with
  | Except.ok total_processed =>
      let saved := { import_log with status := "SUCCESS", records_processed := total_processed }
      { log := saved, store := r.2.1, fetch_calls := r.1, raised := none }
  | Except.error msg =>
      let saved := { import_log with status := "FAILED", error_message := msg }
      { log := saved, store := r.2.1, fetch_calls := r.1, raised := some msg }

/-- The `while True` loop of `incremental_update`: like the full-import
loop but with `update_existing=True`, no `totalResults` check, and the
`start_index >= 10000` cap after advancing the offset. -/
def incrementalUpdateLoop (faulty : CpeData → Bool) (now : ℤ) :
    FetchScript → Nat → Nat → Store → Nat × Store × Except String Nat
  | [], _, _, s => (1, s, Except.error "connection failed")
  | Except.error msg :: _, _, _, s => (1, s, Except.error msg)
  | Except.ok response :: rest, start_index, total_processed, s =>
      let products := response.products
      if products = [] then (1, s, Except.ok total_processed)
      else
        let batch := processCpeBatch faulty now products true s
        let total_processed' := total_processed + batch.2
        let start_index' := start_index + products.length
        if 10000 ≤ start_index' then
          (1, batch.1, Except.ok total_processed')
        else
          let r := incrementalUpdateLoop faulty now rest start_index'
            total_processed' batch.1
          (r.1 + 1, r.2.1, r.2.2)

/-- Embedding of `CPEImportService.incremental_update(days_back)`. The
`days_back` argument is accepted but, as in the source, does not influence
the fetched query. -/
def incrementalUpdate (faulty : CpeData → Bool) (now : ℤ) (days_back : Nat)
    (script : FetchScript) (s : Store) : ImportOutcome :=
  let _ := days_back
  let import_log : ImportLog :=
    { source := "CPE", operation := "INCREMENTAL", status := "STARTED",
      records_processed := 0, error_message := "" }
  let r := incrementalUpdateLoop faulty now script 0 0 s
  match r.2.2 with
  | Except.ok total_processed =>
      let saved := { import_log with status := "SUCCESS", records_processed := total_processed }
      { log := saved, store := r.2.1, fetch_calls := r.1, raised := none }
  | Except.error msg =>
      let saved := { import_log with status := "FAILED", error_message := msg }
      { log := saved, store := r.2.1, fetch_calls := r.1, raised := some msg }

/-! ## `NVDAPIClient`: rate limiting and request retry -/

/-- The rate-limit configuration fixed at client construction. -/
structure ClientConfig where
  rate_limit : Nat
  rate_window : ℤ
deriving Repr

/-- The mutable client state: the `request_times` list, a logical wall
clock (advanced only by `time.sleep`), and the log of sleeps performed. -/
structure ClientState where
  request_times : List ℤ
  clock : ℤ
  sleeps : List ℤ
deriving DecidableEq, Repr

/-- Embedding of `NVDAPIClient._handle_rate_limit`: drop timestamps older
than the window; if the remaining count reaches the limit, wait
`rate_window - (now - oldest)` seconds when positive and clear the list;
finally append the current (post-wait) time.

When `rate_limit = 0` and the filtered list is empty the Python code would
raise `IndexError` on `request_times[0]`; that branch is modelled as a
no-wait fall-through and is unreachable for the configurations considered
(the client always has `rate_limit ≥ 1`). -/
def handleRateLimit (cfg : ClientConfig) (st : ClientState) : ClientState :=
  let current_time := st.clock
  let times := st.request_times.filter (fun t => decide (current_time - t < cfg.rate_window))
  let st' :=
    if cfg.rate_limit ≤ times.length then
      match times with
      | [] => { st with request_times := times }
      | oldest_request :: _ =>
          let wait_time := cfg.rate_window - (current_time - oldest_request)
          if 0 < wait_time then
            { request_times := [], clock := st.clock + wait_time,
              sleeps := st.sleeps ++ [wait_time] }
          else { st with request_times := times }
    else { st with request_times := times }
  { st' with request_times := st'.request_times ++ [st'.clock] }

/-- One scripted transport event for `_make_request`: a successful JSON
body, an HTTP error status (from `raise_for_status`), or a
transport-level failure (`requests.exceptions.RequestException`). -/
inductive HttpEvent (α : Type) where
  | success (body : α)
  | httpError (status : Nat)
  | transportError (msg : String)
deriving Repr

/-- What `_make_request` does for the caller: return a body, or propagate
an HTTP-status or transport failure. -/
inductive RequestResult (α : Type) where
  | ok (body : α)
  | httpFailure (status : Nat)
  | transportFailure (msg : String)
deriving DecidableEq, Repr

/-- Embedding of `NVDAPIClient._make_request`: rate-limit, issue the GET
(consume the next scripted event), and on status 429 sleep 60 seconds and
retry recursively; any other HTTP error or transport failure propagates.
Returns (final client state, number of HTTP calls issued, result). An
exhausted script behaves as a transport failure after the call is issued. -/
def makeRequest {α : Type} (cfg : ClientConfig) :
    List (HttpEvent α) → ClientState → ClientState × Nat × RequestResult α
  | [], st => (handleRateLimit cfg st, 1, RequestResult.transportFailure "connection failed")
  | ev :: rest, st =>
      let st1 := handleRateLimit cfg st
      match ev with
      | HttpEvent.success body => (st1, 1, RequestResult.ok body)
      | HttpEvent.httpError status =>
          if status = 429 then
            let st2 := { st1 with clock := st1.clock + 60, sleeps := st1.sleeps ++ [60] }
            let r := makeRequest cfg rest st2
            (r.1, r.2.1 + 1, r.2.2)
          else (st1, 1, RequestResult.httpFailure status)
      | HttpEvent.transportError msg => (st1, 1, RequestResult.transportFailure msg)

/-! ## Helper lemmas -/

/-- `s[:n]` never yields more than `n` characters. -/
lemma pyTake_length_le (s : String) (n : Nat) : (pyTake s n).length ≤ n := by
  simp [pyTake, String.length_mk]

/-- The decoder output is capped at 200 characters on every input. -/
lemma decodeCpeComponent_length_le (s : String) :
    (decodeCpeComponent s).length ≤ 200 := by
  unfold decodeCpeComponent
  split
  · decide
  · exact pyTake_length_le _ 200

/-- The guarded decode expressions of `_normalize_cpe_data` are capped at
200 characters. -/
lemma ite_decode_length_le (c : Prop) [Decidable c] (x : String) :
    (if c then decodeCpeComponent x else "").length ≤ 200 := by
  split
  · exact decodeCpeComponent_length_le x
  · decide

/-- Padding brings a short segment list to exactly 13 positions. -/
lemma cpePadded_length (cpe_name : String)
    (h : (cpeSegments cpe_name).length ≤ 13) :
    (cpePadded cpe_name).length = 13 := by
  simp only [cpePadded, List.length_append, List.length_replicate]
  omega

/-- A padded position beyond the real segments holds the wildcard. -/
lemma cpePadded_getD_missing (cpe_name : String) (i : Nat)
    (h1 : (cpeSegments cpe_name).length ≤ i) (h2 : i < 13) :
    (cpePadded cpe_name).getD i "" = "*" := by
  unfold cpePadded
  rw [List.getD_eq_getElem?_getD, List.getElem?_append_right h1,
    List.getElem?_replicate, if_pos (by omega)]
  rfl

/-! ## C9 -/

/-- C9: `_decode_cpe_component` returns the empty string on an empty or
wildcard (`*`) input; on every other input it replaces each occurrence of
`%20` by a space, `%2f` by a forward slash and `%5c` by a backslash
(left to right, in that order) and truncates the result to 200 characters;
in particular the spec's three examples hold. -/
theorem C9_decode_component (component : String) :
    ((component = "" ∨ component = "*") → decodeCpeComponent component = "") ∧
    (component ≠ "" → component ≠ "*" →
      decodeCpeComponent component =
        pyTake (pyReplace (pyReplace (pyReplace component "%20" " ") "%2f" "/") "%5c" "\\") 200) ∧
    decodeCpeComponent "%20test%2fcase" = " test/case" ∧
    decodeCpeComponent "*" = "" ∧
    decodeCpeComponent "" = "" := by
  refine ⟨fun h => ?_, fun h1 h2 => ?_, rfl, rfl, rfl⟩
  · unfold decodeCpeComponent
    rw [if_pos h]
  · unfold decodeCpeComponent
    rw [if_neg (by tauto)]

/-- Witness for C9 at the concrete input `%5cabc`. -/
theorem C9_decode_component_witness :
    decodeCpeComponent "%5cabc" = "\\abc" := by
  have h := (C9_decode_component "%5cabc").2.1 (by decide) (by decide)
  rw [h]
  rfl

/-! ## C3

The claim fails on the code: `_decode_cpe_component` truncates every
component uniformly to 200 characters (`decoded[:200]`), never to the
per-field model maxima. A `language` component of 12 characters (model
maximum 10) is stored with all 12 characters; equally a `version`
component longer than 100 characters would be stored untruncated up to
200. -/

/-- C3 counterexample: for a CPE name whose language position holds the
12-character component `verylonglang`, the normalized `language` value has
length 12, exceeding the 10-character cap the claim asserts. -/
theorem C3_counterexample :
    ¬ ((normalizeCpeData
        ⟨"cpe:2.3:a:v:p:1:u:e:verylonglang:s:t:h:o", "x", false, []⟩).language.length ≤ 10) := by
  decide

/-- C3 (amended): every decoded string component of a normalized record is
truncated to the uniform 200-character cap of `_decode_cpe_component`
before storage — not to each field's own model maximum — and an over-long
component is never rejected (the decoder is total and truncates instead of
failing). -/
theorem C3_uniform_truncation (cpe_data : CpeData) :
    (normalizeCpeData cpe_data).vendor.length ≤ 200 ∧
    (normalizeCpeData cpe_data).product.length ≤ 200 ∧
    (normalizeCpeData cpe_data).version.length ≤ 200 ∧
    (normalizeCpeData cpe_data).update.length ≤ 200 ∧
    (normalizeCpeData cpe_data).edition.length ≤ 200 ∧
    (normalizeCpeData cpe_data).language.length ≤ 200 ∧
    (normalizeCpeData cpe_data).sw_edition.length ≤ 200 ∧
    (normalizeCpeData cpe_data).target_sw.length ≤ 200 ∧
    (normalizeCpeData cpe_data).target_hw.length ≤ 200 ∧
    (normalizeCpeData cpe_data).other.length ≤ 200 := by
  simp only [normalizeCpeData]
  exact ⟨ite_decode_length_le _ _, ite_decode_length_le _ _, ite_decode_length_le _ _,
    ite_decode_length_le _ _, ite_decode_length_le _ _, ite_decode_length_le _ _,
    ite_decode_length_le _ _, ite_decode_length_le _ _, ite_decode_length_le _ _,
    ite_decode_length_le _ _⟩

/-! ## C4

The claim fails on the code: position 2 (`part`) is taken raw from the
padded list and is not passed through `_decode_cpe_component`, so an
identifier with fewer than 3 segments gets `part = '*'` (the padding
wildcard) rather than the empty string. Positions 3–12 are decoded and a
missing position there does yield the empty string. Parsing never
raises. -/

/-- C4 counterexample: for the empty identifier the `part` component is
the wildcard `*`, not the empty string the claim asserts for missing
positions. -/
theorem C4_counterexample :
    (normalizeCpeData ⟨"", "", false, []⟩).part = "*" ∧
    ¬ ((normalizeCpeData ⟨"", "", false, []⟩).part = "") := by
  decide

/-- C4 (amended): for every identifier with fewer than 13 colon-delimited
segments, parsing splits on `:` (the empty identifier yielding no
segments), pads the list with the wildcard `*` to exactly 13 positions,
takes `part` raw from position 2 — so a missing part position yields `*`,
not the empty string — and passes positions 3–12 through the component
decoder, so every missing decoded position yields the empty string; the
parse is a total function and never raises. -/
theorem C4_short_identifier_parsing (cpe_name cpe_name_id : String)
    (dep : Bool) (db : List String)
    (hshort : (cpeSegments cpe_name).length < 13) :
    (cpePadded cpe_name).length = 13 ∧
    (normalizeCpeData ⟨cpe_name, cpe_name_id, dep, db⟩).part
      = (cpePadded cpe_name).getD 2 "" ∧
    ((cpeSegments cpe_name).length ≤ 2 →
      (normalizeCpeData ⟨cpe_name, cpe_name_id, dep, db⟩).part = "*") ∧
    (normalizeCpeData ⟨cpe_name, cpe_name_id, dep, db⟩).vendor
      = decodeCpeComponent ((cpePadded cpe_name).getD 3 "") ∧
    ((cpeSegments cpe_name).length ≤ 3 →
      (normalizeCpeData ⟨cpe_name, cpe_name_id, dep, db⟩).vendor = "") ∧
    (normalizeCpeData ⟨cpe_name, cpe_name_id, dep, db⟩).product
      = decodeCpeComponent ((cpePadded cpe_name).getD 4 "") ∧
    ((cpeSegments cpe_name).length ≤ 4 →
      (normalizeCpeData ⟨cpe_name, cpe_name_id, dep, db⟩).product = "") ∧
    (normalizeCpeData ⟨cpe_name, cpe_name_id, dep, db⟩).version
      = decodeCpeComponent ((cpePadded cpe_name).getD 5 "") ∧
    ((cpeSegments cpe_name).length ≤ 5 →
      (normalizeCpeData ⟨cpe_name, cpe_name_id, dep, db⟩).version = "") ∧
    (normalizeCpeData ⟨cpe_name, cpe_name_id, dep, db⟩).update
      = decodeCpeComponent ((cpePadded cpe_name).getD 6 "") ∧
    ((cpeSegments cpe_name).length ≤ 6 →
      (normalizeCpeData ⟨cpe_name, cpe_name_id, dep, db⟩).update = "") ∧
    (normalizeCpeData ⟨cpe_name, cpe_name_id, dep, db⟩).edition
      = decodeCpeComponent ((cpePadded cpe_name).getD 7 "") ∧
    ((cpeSegments cpe_name).length ≤ 7 →
      (normalizeCpeData ⟨cpe_name, cpe_name_id, dep, db⟩).edition = "") ∧
    (normalizeCpeData ⟨cpe_name, cpe_name_id, dep, db⟩).language
      = decodeCpeComponent ((cpePadded cpe_name).getD 8 "") ∧
    ((cpeSegments cpe_name).length ≤ 8 →
      (normalizeCpeData ⟨cpe_name, cpe_name_id, dep, db⟩).language = "") ∧
    (normalizeCpeData ⟨cpe_name, cpe_name_id, dep, db⟩).sw_edition
      = decodeCpeComponent ((cpePadded cpe_name).getD 9 "") ∧
    ((cpeSegments cpe_name).length ≤ 9 →
      (normalizeCpeData ⟨cpe_name, cpe_name_id, dep, db⟩).sw_edition = "") ∧
    (normalizeCpeData ⟨cpe_name, cpe_name_id, dep, db⟩).target_sw
      = decodeCpeComponent ((cpePadded cpe_name).getD 10 "") ∧
    ((cpeSegments cpe_name).length ≤ 10 →
      (normalizeCpeData ⟨cpe_name, cpe_name_id, dep, db⟩).target_sw = "") ∧
    (normalizeCpeData ⟨cpe_name, cpe_name_id, dep, db⟩).target_hw
      = decodeCpeComponent ((cpePadded cpe_name).getD 11 "") ∧
    ((cpeSegments cpe_name).length ≤ 11 →
      (normalizeCpeData ⟨cpe_name, cpe_name_id, dep, db⟩).target_hw = "") ∧
    (normalizeCpeData ⟨cpe_name, cpe_name_id, dep, db⟩).other
      = decodeCpeComponent ((cpePadded cpe_name).getD 12 "") ∧
    ((cpeSegments cpe_name).length ≤ 12 →
      (normalizeCpeData ⟨cpe_name, cpe_name_id, dep, db⟩).other = "") := by
  have hlen := cpePadded_length cpe_name (Nat.le_of_lt hshort)
  refine ⟨hlen, ?_, ?_, ?_, ?_, ?_, ?_, ?_, ?_, ?_, ?_, ?_, ?_, ?_, ?_, ?_, ?_,
    ?_, ?_, ?_, ?_, ?_, ?_⟩ <;>
    first
      | (intro hm
         simp only [normalizeCpeData, hlen,
           cpePadded_getD_missing cpe_name _ hm (by omega)]
         simp [decodeCpeComponent])
      | (simp only [normalizeCpeData, hlen]; norm_num)

/-- Witness for C4 (amended) at the two-segment identifier `cpe:2.3`. -/
theorem C4_short_identifier_parsing_witness :
    (cpeSegments "cpe:2.3").length < 13 ∧
    (normalizeCpeData ⟨"cpe:2.3", "w", false, []⟩).part = "*" ∧
    (normalizeCpeData ⟨"cpe:2.3", "w", false, []⟩).vendor = "" := by
  have h := C4_short_identifier_parsing "cpe:2.3" "w" false [] (by decide)
  exact ⟨by decide, h.2.2.1 (by decide), h.2.2.2.2.1 (by decide)⟩

/-! ## Batch-processing helper lemmas -/

/-- Whether one raw entry reaches the successful end of the per-entry
`try` block: it must carry a `'cpe'` payload and its persistence must not
raise. Exactly these entries increment `processed_count`. -/
def contributes (faulty : CpeData → Bool) : RawEntry → Bool
  | none => false
  | some cpe_data => !faulty cpe_data

/-- The key under which an entry is persisted. -/
def entryKey : RawEntry → String
  | none => ""
  | some cpe_data => (normalizeCpeData cpe_data).cpe_name_id

/-- The unique keys currently present in the store. -/
def storeKeys (s : Store) : List String :=
  s.map (fun r => r.data.cpe_name_id)

lemma processOneEntry_count (faulty : CpeData → Bool) (now : ℤ) (s : Store)
    (e : RawEntry) (u : Bool) :
    (processOneEntry faulty now s e u).2 = if contributes faulty e then 1 else 0 := by
  cases e with
  | none => rfl
  | some c =>
      cases u <;> by_cases hf : faulty c = true <;>
        simp [processOneEntry, contributes, hf]

lemma processCpeBatch_count (faulty : CpeData → Bool) (now : ℤ)
    (products : List RawEntry) (u : Bool) :
    ∀ s : Store, (processCpeBatch faulty now products u s).2
      = products.countP (contributes faulty) := by
  induction products with
  | nil => intro s; rfl
  | cons e rest ih =>
      intro s
      simp only [processCpeBatch, List.countP_cons]
      rw [processOneEntry_count, ih]
      cases contributes faulty e <;> simp [Nat.add_comm]

lemma findByNameId_isSome_of_mem (s : Store) (k : String)
    (h : k ∈ storeKeys s) : (findByNameId s k).isSome := by
  rcases List.mem_map.mp h with ⟨r, hr, hk⟩
  subst hk
  exact List.find?_isSome.mpr ⟨r, hr, beq_self_eq_true _⟩

lemma storeKeys_getOrCreate (s : Store) (d : NormalizedData) (now : ℤ) :
    storeKeys s ⊆ storeKeys (getOrCreate s d.cpe_name_id d now).1 := by
  unfold getOrCreate
  cases hfind : findByNameId s d.cpe_name_id with
  | none =>
      simp only [storeKeys, List.map_append]
      exact List.subset_append_left _ _
  | some r => exact fun a h => h

lemma key_mem_getOrCreate (s : Store) (d : NormalizedData) (now : ℤ) :
    d.cpe_name_id ∈ storeKeys (getOrCreate s d.cpe_name_id d now).1 := by
  unfold getOrCreate
  cases hfind : findByNameId s d.cpe_name_id with
  | none => simp [storeKeys]
  | some r =>
      have hfindX : s.find? (fun r0 : StoredRec => r0.data.cpe_name_id == d.cpe_name_id)
          = some r := hfind
      have hr0 := List.find?_some hfindX
      have hmem := List.mem_of_find?_eq_some hfindX
      exact List.mem_map.mpr ⟨r, hmem, by simpa using hr0⟩

lemma getOrCreate_found_fixed (s : Store) (d : NormalizedData) (now : ℤ)
    (h : d.cpe_name_id ∈ storeKeys s) :
    (getOrCreate s d.cpe_name_id d now).1 = s := by
  unfold getOrCreate
  rcases Option.isSome_iff_exists.mp (findByNameId_isSome_of_mem s _ h) with ⟨r, hr⟩
  rw [hr]

lemma storeKeys_processOneEntry_false (faulty : CpeData → Bool) (now : ℤ)
    (s : Store) (e : RawEntry) :
    storeKeys s ⊆ storeKeys (processOneEntry faulty now s e false).1 := by
  cases e with
  | none => exact fun a h => h
  | some c =>
      by_cases hf : faulty c = true
      · simp [processOneEntry, hf]
      · have hf' : faulty c = false := by simpa using hf
        simp only [processOneEntry, hf', Bool.false_eq_true, if_false]
        exact storeKeys_getOrCreate s (normalizeCpeData c) now

lemma entryKey_mem_processOneEntry_false (faulty : CpeData → Bool) (now : ℤ)
    (s : Store) (e : RawEntry) (hc : contributes faulty e = true) :
    entryKey e ∈ storeKeys (processOneEntry faulty now s e false).1 := by
  cases e with
  | none => cases hc
  | some c =>
      have hf : faulty c = false := by
        revert hc
        simp [contributes]
      simp only [processOneEntry, entryKey, hf, Bool.false_eq_true, if_false]
      exact key_mem_getOrCreate s (normalizeCpeData c) now

lemma processOneEntry_false_fixed (faulty : CpeData → Bool) (now : ℤ)
    (s : Store) (e : RawEntry)
    (h : contributes faulty e = true → entryKey e ∈ storeKeys s) :
    (processOneEntry faulty now s e false).1 = s := by
  cases e with
  | none => rfl
  | some c =>
      by_cases hf : faulty c = true
      · simp [processOneEntry, hf]
      · have hf' : faulty c = false := by simpa using hf
        have hk : (normalizeCpeData c).cpe_name_id ∈ storeKeys s := by
          have hm := h (by simp [contributes, hf'])
          simpa [entryKey] using hm
        simp only [processOneEntry, hf', Bool.false_eq_true, if_false]
        exact getOrCreate_found_fixed s (normalizeCpeData c) now hk

lemma storeKeys_processCpeBatch_false (faulty : CpeData → Bool) (now : ℤ)
    (products : List RawEntry) :
    ∀ s : Store, storeKeys s ⊆ storeKeys (processCpeBatch faulty now products false s).1 := by
  induction products with
  | nil => intro s; exact fun a h => h
  | cons e rest ih =>
      intro s
      simp only [processCpeBatch]
      exact (storeKeys_processOneEntry_false faulty now s e).trans (ih _)

lemma entryKey_mem_processCpeBatch_false (faulty : CpeData → Bool) (now : ℤ)
    (products : List RawEntry) :
    ∀ s : Store, ∀ e ∈ products, contributes faulty e = true →
      entryKey e ∈ storeKeys (processCpeBatch faulty now products false s).1 := by
  induction products with
  | nil => intro s e he; cases he
  | cons e0 rest ih =>
      intro s e he hc
      simp only [processCpeBatch]
      rcases List.mem_cons.mp he with rfl | hmem
      · exact storeKeys_processCpeBatch_false faulty now rest _
          (entryKey_mem_processOneEntry_false faulty now s e hc)
      · exact ih _ e hmem hc

lemma processCpeBatch_false_fixed (faulty : CpeData → Bool) (now : ℤ)
    (products : List RawEntry) :
    ∀ s : Store,
      (∀ e ∈ products, contributes faulty e = true → entryKey e ∈ storeKeys s) →
      (processCpeBatch faulty now products false s).1 = s := by
  induction products with
  | nil => intro s _; rfl
  | cons e0 rest ih =>
      intro s h
      simp only [processCpeBatch]
      have h0 : (processOneEntry faulty now s e0 false).1 = s :=
        processOneEntry_false_fixed faulty now s e0
          (h e0 (List.mem_cons_self _ _))
      rw [h0]
      exact ih s (fun e he hc => h e (List.mem_cons_of_mem _ he) hc)

/-! ## C10 -/

/-- C10: `_process_cpe_batch` returns normally on every input and fault
pattern, and its `processed_count` is exactly the number of entries that
carry a `'cpe'` payload and whose persistence does not raise — so the
count is at most the input length, an entry without a payload or whose
processing raises contributes 0, and a persisted entry (created, already
existing, or updated — the count does not inspect the `created` flag or
the store) contributes exactly 1. -/
theorem C10_batch_count_bound (faulty : CpeData → Bool) (now : ℤ)
    (products : List RawEntry) (update_existing : Bool) (s : Store) :
    (processCpeBatch faulty now products update_existing s).2
      = products.countP (contributes faulty) ∧
    (processCpeBatch faulty now products update_existing s).2 ≤ products.length ∧
    contributes faulty none = false ∧
    (∀ cpe_data, faulty cpe_data = false → contributes faulty (some cpe_data) = true) ∧
    (∀ cpe_data, faulty cpe_data = true → contributes faulty (some cpe_data) = false) := by
  refine ⟨processCpeBatch_count faulty now products update_existing s, ?_, rfl, ?_, ?_⟩
  · rw [processCpeBatch_count]
    exact List.countP_le_length _
  · intro c h; simp [contributes, h]
  · intro c h; simp [contributes, h]

/-- Witness for C10 on a two-entry batch (one missing payload, one good). -/
theorem C10_batch_count_bound_witness :
    (processCpeBatch (fun _ => false) 0 [none, some ⟨"", "a", false, []⟩] false []).2 = 1 ∧
    (processCpeBatch (fun _ => false) 0 [none, some ⟨"", "a", false, []⟩] false []).2 ≤ 2 ∧
    contributes (fun _ => false) (some ⟨"", "a", false, []⟩) = true := by
  have h := C10_batch_count_bound (fun _ => false) 0
    [none, some ⟨"", "a", false, []⟩] false []
  exact ⟨by rw [h.1]; rfl, by simpa using h.2.1, h.2.2.2.1 _ rfl⟩

/-! ## C8 -/

/-- C8: with `update_existing=False` (create-if-absent), running
`_process_cpe_batch` a second time on the same input leaves the store
literally unchanged — every entry of the second run is recognized as
already existing — so the stored record count after two runs equals the
count after one run. -/
theorem C8_create_only_idempotent (faulty : CpeData → Bool) (now now2 : ℤ)
    (products : List RawEntry) (s : Store) :
    (processCpeBatch faulty now2 products false
        (processCpeBatch faulty now products false s).1).1
      = (processCpeBatch faulty now products false s).1 ∧
    ((processCpeBatch faulty now2 products false
        (processCpeBatch faulty now products false s).1).1).length
      = ((processCpeBatch faulty now products false s).1).length := by
  have hfix := processCpeBatch_false_fixed faulty now2 products
    (processCpeBatch faulty now products false s).1
    (fun e he hc => entryKey_mem_processCpeBatch_false faulty now products s e he hc)
  exact ⟨hfix, by rw [hfix]⟩

/-! ## C7 -/

/-- `update_or_create` on an existing key: the matched row keeps its
`created_at`, gets all data fields overwritten and `updated_at` set. -/
lemma findByNameId_updateOrCreate_found (s : Store) (d : NormalizedData)
    (now : ℤ) (r : StoredRec)
    (hfind : findByNameId s d.cpe_name_id = some r) :
    findByNameId (updateOrCreate s d.cpe_name_id d now).1 d.cpe_name_id
      = some { r with data := d, updated_at := now } := by
  have hfindY : s.find? (fun r0 : StoredRec => r0.data.cpe_name_id == d.cpe_name_id)
      = some r := hfind
  have hr0 := List.find?_some hfindY
  have hr : (r.data.cpe_name_id == d.cpe_name_id) = true := hr0
  have hp : ((fun r0 : StoredRec => r0.data.cpe_name_id == d.cpe_name_id) ∘
      (fun r0 : StoredRec =>
        if r0.data.cpe_name_id == d.cpe_name_id then
          { r0 with data := d, updated_at := now }
        else r0))
      = fun r0 : StoredRec => r0.data.cpe_name_id == d.cpe_name_id := by
    funext r0
    by_cases hc : r0.data.cpe_name_id = d.cpe_name_id
    · simp [hc]
    · simp [hc]
  unfold updateOrCreate
  rw [hfind]
  show findByNameId (s.map (fun r0 : StoredRec =>
      if r0.data.cpe_name_id == d.cpe_name_id then
        { r0 with data := d, updated_at := now }
      else r0)) d.cpe_name_id = _
  unfold findByNameId
  rw [List.find?_map, hp, hfindY]
  simp [hr]
  intro hc
  exact absurd (by simpa using hr0) hc

/-- C7: on an entry whose `cpe_name_id` already exists, `_process_cpe_batch`
with `update_existing=True` overwrites all the record's data fields with
the newly normalized values (in particular `version`) and advances
`updated_at` to the save time, while `created_at` keeps its value from the
first write. -/
theorem C7_upsert_overwrites (faulty : CpeData → Bool) (t : ℤ)
    (cpe_data : CpeData) (s : Store) (r : StoredRec)
    (hfind : findByNameId s (normalizeCpeData cpe_data).cpe_name_id = some r)
    (hok : faulty cpe_data = false)
    (hadv : r.updated_at < t) :
    ∃ r', findByNameId (processCpeBatch faulty t [some cpe_data] true s).1
            (normalizeCpeData cpe_data).cpe_name_id = some r' ∧
      r'.data = normalizeCpeData cpe_data ∧
      r'.data.version = (normalizeCpeData cpe_data).version ∧
      r'.created_at = r.created_at ∧
      r'.updated_at = t ∧
      r.updated_at < r'.updated_at := by
  refine ⟨{ r with data := normalizeCpeData cpe_data, updated_at := t },
    ?_, rfl, rfl, rfl, rfl, hadv⟩
  simp only [processCpeBatch, processOneEntry, hok, Bool.false_eq_true, if_false, if_true]
  exact findByNameId_updateOrCreate_found s (normalizeCpeData cpe_data) t r hfind

/-- Concrete first-write record for the C7 witness. -/
def c7old : NormalizedData :=
  normalizeCpeData ⟨"cpe:2.3:a:v:p:1.0:*:*:*:*:*:*:*", "id1", false, []⟩

/-- Concrete refreshed payload for the C7 witness: same `name_id`, new
version. -/
def c7new : CpeData :=
  ⟨"cpe:2.3:a:v:p:2.0:*:*:*:*:*:*:*", "id1", false, []⟩

/-- Witness for C7: a store holding version 1.0 of `id1` written at time 0
is overwritten with version 2.0 at time 5; `created_at` stays 0. -/
theorem C7_upsert_overwrites_witness :
    ∃ r', findByNameId (processCpeBatch (fun _ => false) 5 [some c7new] true
            [{ data := c7old, created_at := 0, updated_at := 0 }]).1
            (normalizeCpeData c7new).cpe_name_id = some r' ∧
      r'.data = normalizeCpeData c7new ∧
      r'.data.version = (normalizeCpeData c7new).version ∧
      r'.created_at = (0 : ℤ) ∧
      r'.updated_at = (5 : ℤ) ∧
      (0 : ℤ) < r'.updated_at := by
  exact C7_upsert_overwrites (fun _ => false) 5 c7new
    [{ data := c7old, created_at := 0, updated_at := 0 }]
    { data := c7old, created_at := 0, updated_at := 0 }
    (by decide) rfl (by decide)

/-! ## C2 -/

/-- C2: an attempt — `full_import` or `incremental_update` — never hands
control back with its audit row still in STARTED state: the saved row is
SUCCESS exactly when no fault is re-raised, and whenever a fault is
re-raised to the caller the row saved beforehand is FAILED and carries the
fault's message as `error_message`. -/
theorem C2_failed_attempts_audited (faulty : CpeData → Bool) (now : ℤ)
    (script : FetchScript) (s : Store) (days_back : Nat) :
    ((fullImport faulty now script s).log.status = "SUCCESS" ∨
      (fullImport faulty now script s).log.status = "FAILED") ∧
    (fullImport faulty now script s).log.status ≠ "STARTED" ∧
    ((fullImport faulty now script s).raised = none →
      (fullImport faulty now script s).log.status = "SUCCESS") ∧
    (∀ msg, (fullImport faulty now script s).raised = some msg →
      (fullImport faulty now script s).log.status = "FAILED" ∧
      (fullImport faulty now script s).log.error_message = msg) ∧
    ((incrementalUpdate faulty now days_back script s).log.status = "SUCCESS" ∨
      (incrementalUpdate faulty now days_back script s).log.status = "FAILED") ∧
    (incrementalUpdate faulty now days_back script s).log.status ≠ "STARTED" ∧
    ((incrementalUpdate faulty now days_back script s).raised = none →
      (incrementalUpdate faulty now days_back script s).log.status = "SUCCESS") ∧
    (∀ msg, (incrementalUpdate faulty now days_back script s).raised = some msg →
      (incrementalUpdate faulty now days_back script s).log.status = "FAILED" ∧
      (incrementalUpdate faulty now days_back script s).log.error_message = msg) := by
  rcases hf : fullImportLoop faulty now script 0 0 s with ⟨fc, fst, fres⟩
  rcases hi : incrementalUpdateLoop faulty now script 0 0 s with ⟨ic, ist, ires⟩
  cases fres <;> cases ires <;>
    simp [fullImport, incrementalUpdate, hf, hi]

/-- Witness for C2: a fetch that raises `boom` on the first page leaves
FAILED audit rows carrying `boom` for both operations. -/
theorem C2_failed_attempts_audited_witness :
    (fullImport (fun _ => false) 0 [Except.error "boom"] []).log.status = "FAILED" ∧
    (fullImport (fun _ => false) 0 [Except.error "boom"] []).log.error_message = "boom" ∧
    (incrementalUpdate (fun _ => false) 0 7 [Except.error "boom"] []).log.status = "FAILED" ∧
    (incrementalUpdate (fun _ => false) 0 7 [Except.error "boom"] []).log.error_message = "boom" := by
  have h := C2_failed_attempts_audited (fun _ => false) 0 [Except.error "boom"] [] 7
  exact ⟨(h.2.2.2.1 "boom" rfl).1, (h.2.2.2.1 "boom" rfl).2,
    (h.2.2.2.2.2.2.2 "boom" rfl).1, (h.2.2.2.2.2.2.2 "boom" rfl).2⟩

/-! ## C1 -/

/-- Total number of entries served across a list of pages. -/
def pagesTotal (pages : List PageResponse) : Nat :=
  (pages.map (fun p => p.products.length)).sum

lemma pagesTotal_pos (pages : List PageResponse) (hne : pages ≠ [])
    (hpos : ∀ p ∈ pages, p.products ≠ []) : 0 < pagesTotal pages := by
  rcases pages with _ | ⟨p, rest⟩
  · exact absurd rfl hne
  · have h1 : 0 < p.products.length :=
      List.length_pos.mpr (hpos p (List.mem_cons_self _ _))
    simp only [pagesTotal, List.map_cons, List.sum_cons]
    omega

lemma fullImportLoop_covers (faulty : CpeData → Bool) (now : ℤ) (N : Nat) :
    ∀ (pages : List PageResponse) (start_index acc : Nat) (s : Store),
      pages ≠ [] →
      (∀ p ∈ pages, p.totalResults = N) →
      (∀ p ∈ pages, p.products ≠ []) →
      (∀ p ∈ pages, ∀ e ∈ p.products, contributes faulty e = true) →
      start_index + pagesTotal pages = N →
      (fullImportLoop faulty now (pages.map Except.ok) start_index acc s).1
          = pages.length ∧
      (fullImportLoop faulty now (pages.map Except.ok) start_index acc s).2.2
          = Except.ok (acc + pagesTotal pages) := by
  intro pages
  induction pages with
  | nil => intro _ _ _ hne _ _ _; exact absurd rfl hne
  | cons p rest ih =>
      intro start_index acc s hne htot hpos hgood hsum
      have hppos : p.products ≠ [] := hpos p (List.mem_cons_self _ _)
      have hptot : p.totalResults = N := htot p (List.mem_cons_self _ _)
      have hbcount : (processCpeBatch faulty now p.products false s).2
          = p.products.length := by
        rw [processCpeBatch_count]
        exact List.countP_eq_length.mpr (hgood p (List.mem_cons_self _ _))
      have hsum' : start_index + (p.products.length + pagesTotal rest) = N := by
        have : pagesTotal (p :: rest) = p.products.length + pagesTotal rest := by
          simp only [pagesTotal, List.map_cons, List.sum_cons]
        omega
      by_cases hrest : rest = []
      · subst hrest
        have hz : pagesTotal [p] = p.products.length := by
          simp [pagesTotal]
        have hstop : p.totalResults ≤ start_index + p.products.length := by
          omega
        simp only [List.map_cons, List.map_nil, fullImportLoop, if_neg hppos,
          if_pos hstop, hbcount]
        constructor
        · rfl
        · rw [hz]
      · have hrpos : 0 < pagesTotal rest := pagesTotal_pos rest hrest
          (fun q hq => hpos q (List.mem_cons_of_mem _ hq))
        have hgo : ¬ (p.totalResults ≤ start_index + p.products.length) := by
          omega
        have hih := ih (start_index + p.products.length)
          (acc + p.products.length)
          (processCpeBatch faulty now p.products false s).1
          hrest
          (fun q hq => htot q (List.mem_cons_of_mem _ hq))
          (fun q hq => hpos q (List.mem_cons_of_mem _ hq))
          (fun q hq => hgood q (List.mem_cons_of_mem _ hq))
          (by omega)
        simp only [List.map_cons, fullImportLoop, if_neg hppos, if_neg hgo, hbcount]
        refine ⟨by rw [hih.1]; simp, ?_⟩
        rw [hih.2]
        have : pagesTotal (p :: rest) = p.products.length + pagesTotal rest := by
          simp only [pagesTotal, List.map_cons, List.sum_cons]
        rw [this]
        congr 1
        omega

/-- C1: over a consistent provider dataset — every page reports the same
`totalResults = N`, every page is nonempty and well formed, and the page
sizes sum to exactly `N` — `full_import` issues exactly one fetch call per
served page (the number needed to cover `N`, stopping when
`offset + returned-count` reaches `N`), transitions the audit row
STARTED→SUCCESS, and records `records_processed = N`. -/
theorem C1_full_import_covers (faulty : CpeData → Bool) (now : ℤ)
    (pages : List PageResponse) (s : Store) (N : Nat)
    (hne : pages ≠ [])
    (htot : ∀ p ∈ pages, p.totalResults = N)
    (hpos : ∀ p ∈ pages, p.products ≠ [])
    (hgood : ∀ p ∈ pages, ∀ e ∈ p.products, contributes faulty e = true)
    (hsum : pagesTotal pages = N) :
    (fullImport faulty now (pages.map Except.ok) s).fetch_calls = pages.length ∧
    (fullImport faulty now (pages.map Except.ok) s).log.status = "SUCCESS" ∧
    (fullImport faulty now (pages.map Except.ok) s).log.records_processed = N := by
  have h := fullImportLoop_covers faulty now N pages 0 0 s hne htot hpos hgood
    (by omega)
  rcases hr : fullImportLoop faulty now (pages.map Except.ok) 0 0 s with ⟨fc, fst, fres⟩
  have h1 : fc = pages.length := by
    have h' := h.1
    rw [hr] at h'
    simpa using h'
  have h2 : fres = Except.ok N := by
    have h' := h.2
    rw [hr] at h'
    simpa [hsum] using h'
  subst h1
  subst h2
  simp [fullImport, hr]

/-- First page for the C1 witness: 50 of 75 total. -/
def c1page1 : PageResponse :=
  { products := List.replicate 50 (some ⟨"", "a", false, []⟩), totalResults := 75 }

/-- Second page for the C1 witness: 25 of 75 total. -/
def c1page2 : PageResponse :=
  { products := List.replicate 25 (some ⟨"", "b", false, []⟩), totalResults := 75 }

/-- Witness for C1: the spec's end-to-end scenario — two pages of 50 and
25 entries out of 75 total give exactly 2 fetch calls, SUCCESS, and
`records_processed = 75`. -/
theorem C1_full_import_covers_witness :
    (fullImport (fun _ => false) 0 ([c1page1, c1page2].map Except.ok) []).fetch_calls = 2 ∧
    (fullImport (fun _ => false) 0 ([c1page1, c1page2].map Except.ok) []).log.status
      = "SUCCESS" ∧
    (fullImport (fun _ => false) 0 ([c1page1, c1page2].map Except.ok) []).log.records_processed
      = 75 := by
  have h := C1_full_import_covers (fun _ => false) 0 [c1page1, c1page2] [] 75
    (by simp)
    (by intro p hp
        simp only [List.mem_cons, List.not_mem_nil, or_false] at hp
        rcases hp with rfl | rfl <;> rfl)
    (by intro p hp
        simp only [List.mem_cons, List.not_mem_nil, or_false] at hp
        rcases hp with rfl | rfl <;> simp [c1page1, c1page2])
    (by intro p hp e he
        simp only [List.mem_cons, List.not_mem_nil, or_false] at hp
        rcases hp with rfl | rfl <;>
          (simp only [c1page1, c1page2] at he
           rw [List.eq_of_mem_replicate he]
           rfl))
    (by simp [pagesTotal, c1page1, c1page2])
  simpa using h

/-! ## Client helper lemmas -/

/-- `_handle_rate_limit` below the quota: no sleep, the expired timestamps
are dropped and the current time is appended. -/
lemma handleRateLimit_no_wait (cfg : ClientConfig) (st : ClientState)
    (h : (st.request_times.filter
        (fun t => decide (st.clock - t < cfg.rate_window))).length < cfg.rate_limit) :
    handleRateLimit cfg st =
      { request_times := st.request_times.filter
          (fun t => decide (st.clock - t < cfg.rate_window)) ++ [st.clock],
        clock := st.clock, sleeps := st.sleeps } := by
  simp only [handleRateLimit]
  rw [if_neg (Nat.not_le.mpr h)]

/-! ## C6 -/

/-- C6: with `rate_limit = 2`, `rate_window = 5` and two recorded
timestamps both still inside the window at the 3rd request, the limiter
suspends for exactly `wait = rate_window - (now - oldest)` before the
request is sent (the wait is appended to the sleep log), clears the whole
timestamp list after the forced wait, and appends the post-wait timestamp,
leaving the list at length exactly 1. -/
theorem C6_rate_limit_reset (cfg : ClientConfig) (st : ClientState) (t0 t1 : ℤ)
    (hlimit : cfg.rate_limit = 2) (hwindow : cfg.rate_window = 5)
    (htimes : st.request_times = [t0, t1])
    (h0 : st.clock - t0 < 5) (h1 : st.clock - t1 < 5) :
    handleRateLimit cfg st =
      { request_times := [t0 + 5], clock := t0 + 5,
        sleeps := st.sleeps ++ [5 - (st.clock - t0)] } ∧
    (handleRateLimit cfg st).request_times.length = 1 := by
  have hfilter : st.request_times.filter
      (fun t => decide (st.clock - t < cfg.rate_window)) = [t0, t1] := by
    rw [htimes, hwindow]
    simp [List.filter, h0, h1]
  have hmain : handleRateLimit cfg st =
      { request_times := [t0 + 5], clock := t0 + 5,
        sleeps := st.sleeps ++ [5 - (st.clock - t0)] } := by
    simp only [handleRateLimit]
    rw [hfilter, hlimit, hwindow]
    norm_num
    rw [if_pos h0]
    simp only [List.nil_append, List.cons.injEq, and_true]
    omega
  exact ⟨hmain, by rw [hmain]; rfl⟩

/-- Witness for C6 at `rate_limit = 2`, `rate_window = 5`, recorded
timestamps 0 and 1, current time 2: a 3-second suspend, list reset to the
single post-wait timestamp 5. -/
theorem C6_rate_limit_reset_witness :
    handleRateLimit ⟨2, 5⟩ ⟨[0, 1], 2, []⟩
      = { request_times := [5], clock := 5, sleeps := [3] } ∧
    (handleRateLimit ⟨2, 5⟩ ⟨[0, 1], 2, []⟩).request_times.length = 1 := by
  have h := C6_rate_limit_reset ⟨2, 5⟩ ⟨[0, 1], 2, []⟩ 0 1 rfl rfl rfl
    (by decide) (by decide)
  refine ⟨?_, h.2⟩
  rw [h.1]
  decide

/-! ## C5 -/

/-- C5: from a fresh client state (no recorded requests, quota at least 2
so local throttling does not interfere), a 429 response followed by a
success makes exactly 2 HTTP calls with exactly one 60-second suspend and
returns the second call's payload; a non-429 HTTP error status or a
transport-level failure is propagated to the caller after exactly 1 call
with no retry and no suspend. -/
theorem C5_429_retry_and_propagate {α : Type} (cfg : ClientConfig)
    (st : ClientState) (body : α) (rest rest2 rest3 : List (HttpEvent α))
    (status : Nat) (msg : String)
    (hfresh : st.request_times = []) (hlimit : 2 ≤ cfg.rate_limit) :
    ((makeRequest cfg (HttpEvent.httpError 429 :: HttpEvent.success body :: rest) st).2.1 = 2 ∧
      (makeRequest cfg (HttpEvent.httpError 429 :: HttpEvent.success body :: rest) st).2.2
        = RequestResult.ok body ∧
      (makeRequest cfg (HttpEvent.httpError 429 :: HttpEvent.success body :: rest) st).1.sleeps
        = st.sleeps ++ [60]) ∧
    (status ≠ 429 →
      makeRequest cfg (HttpEvent.httpError status :: rest2) st
        = (handleRateLimit cfg st, 1, RequestResult.httpFailure status) ∧
      (handleRateLimit cfg st).sleeps = st.sleeps) ∧
    (makeRequest cfg (HttpEvent.transportError msg :: rest3) st
        = (handleRateLimit cfg st, 1, RequestResult.transportFailure msg) ∧
      (handleRateLimit cfg st).sleeps = st.sleeps) := by
  have hst1 : handleRateLimit cfg st =
      { request_times := [st.clock], clock := st.clock, sleeps := st.sleeps } := by
    rw [handleRateLimit_no_wait cfg st (by rw [hfresh]; simp; omega)]
    rw [hfresh]
    rfl
  have hst3 := handleRateLimit_no_wait cfg
    { request_times := [st.clock], clock := st.clock + 60, sleeps := st.sleeps ++ [60] }
    (by
      show (List.filter (fun t : ℤ => decide (st.clock + 60 - t < cfg.rate_window))
          [st.clock]).length < cfg.rate_limit
      have hle := List.length_filter_le
        (fun t : ℤ => decide (st.clock + 60 - t < cfg.rate_window)) [st.clock]
      simp only [List.length_cons, List.length_nil] at hle
      omega)
  have hmain : makeRequest cfg (HttpEvent.httpError 429 :: HttpEvent.success body :: rest) st
      = (handleRateLimit cfg
          { request_times := [st.clock], clock := st.clock + 60, sleeps := st.sleeps ++ [60] },
         2, RequestResult.ok body) := by
    simp only [makeRequest]
    rw [hst1]
    norm_num
  refine ⟨⟨?_, ?_, ?_⟩, fun hs => ⟨?_, ?_⟩, ?_, ?_⟩
  · rw [hmain]
  · rw [hmain]
  · rw [hmain]
    rw [hst3]
  · simp only [makeRequest]
    rw [if_neg hs]
  · rw [hst1]
  · simp only [makeRequest]
  · rw [hst1]

/-- Witness for C5: a fresh keyless-quota client (limit 5, window 30) sees
429 then 200 → 2 calls, one 60-second sleep, final payload returned; a 500
and a transport failure each propagate after exactly 1 call. -/
theorem C5_429_retry_and_propagate_witness :
    ((makeRequest ⟨5, 30⟩ [HttpEvent.httpError 429, HttpEvent.success (0 : Nat)]
        ⟨[], 0, []⟩).2.1 = 2 ∧
      (makeRequest ⟨5, 30⟩ [HttpEvent.httpError 429, HttpEvent.success (0 : Nat)]
        ⟨[], 0, []⟩).2.2 = RequestResult.ok 0 ∧
      (makeRequest ⟨5, 30⟩ [HttpEvent.httpError 429, HttpEvent.success (0 : Nat)]
        ⟨[], 0, []⟩).1.sleeps = [60]) ∧
    (makeRequest ⟨5, 30⟩ ([HttpEvent.httpError 500] : List (HttpEvent Nat)) ⟨[], 0, []⟩
        = (handleRateLimit ⟨5, 30⟩ ⟨[], 0, []⟩, 1, RequestResult.httpFailure 500) ∧
      (handleRateLimit (⟨5, 30⟩ : ClientConfig) ⟨[], 0, []⟩).sleeps = []) ∧
    (makeRequest ⟨5, 30⟩ ([HttpEvent.transportError "refused"] : List (HttpEvent Nat))
        ⟨[], 0, []⟩
        = (handleRateLimit ⟨5, 30⟩ ⟨[], 0, []⟩, 1, RequestResult.transportFailure "refused") ∧
      (handleRateLimit (⟨5, 30⟩ : ClientConfig) ⟨[], 0, []⟩).sleeps = []) := by
  have h := C5_429_retry_and_propagate ⟨5, 30⟩ ⟨[], 0, []⟩ (0 : Nat) [] [] []
    500 "refused" rfl (by decide)
  exact ⟨⟨h.1.1, h.1.2.1, h.1.2.2⟩, h.2.1 (by decide), h.2.2⟩

end VulnDojo
